import Mathlib

/-!
Libre Network — verification of the consensus core

A shallow embedding of the Libre Network replicated-ledger prototype
(`libre_network_gui.py`, `main.py`, `consensus.py`, `storage.py`,
`blockchain.py`) together with proofs and refutations of the frozen
specification claims.

Modelling conventions:

* Python `dict`s are embedded as insertion-ordered association lists
  (`List (String × α)`); updating an existing key keeps its position,
  inserting a fresh key appends at the end, exactly as CPython dicts behave.
* Machine-level 32-bit arithmetic (inside the Mersenne Twister) is `Nat`
  with explicit masking by `2^32`.
* Monetary amounts are embedded as `ℚ`; every arithmetic step performed by
  the Python code on these values (`+`, `-`, comparisons) is exact in `ℚ`
  for the inputs exercised by the theorems below.
* File-backed mutable state (the `libre_data/*.json` files) is an explicit
  record `FS` threaded through the embedded functions.
* `json.dumps(..., sort_keys=True)` and `hashlib.sha256` are embedded
  executably (`Js.dumps`, `sha256Hex`), so every hash in the development is
  computed, never assumed.
-/

set_option maxRecDepth 10000

/-! ## Association lists embedding Python dicts -/

namespace AL

variable {κ : Type} [DecidableEq κ] {α : Type}

/-- Python's `dict[k]` lookup: first entry with the given key. -/
def lookup (k : κ) : List (κ × α) → Option α
  | [] => none
  | (k', v) :: rest => if k' = k then some v else lookup k rest

/-- Python's `k in dict`. -/
def hasKey (k : κ) (l : List (κ × α)) : Bool :=
  (lookup k l).isSome

/-- Python's `dict[k] = v`: update in place if the key exists, append otherwise
(CPython insertion-order semantics; also `INSERT OR REPLACE` keyed rows). -/
def insert (k : κ) (v : α) : List (κ × α) → List (κ × α)
  | [] => [(k, v)]
  | (k', v') :: rest =>
    if k' = k then (k', v) :: rest else (k', v') :: insert k v rest

/-- Python's `dict[k] = f(dict[k])` on an existing key; no effect when the key is
absent (all call sites below are guarded by a membership test, matching the
Python originals which would raise `KeyError` otherwise). -/
def update (k : κ) (f : α → α) : List (κ × α) → List (κ × α)
  | [] => []
  | (k', v') :: rest =>
    if k' = k then (k', f v') :: rest else (k', v') :: update k f rest

/-- Python's `del dict[k]` / `dict.pop(k)`. -/
def erase (k : κ) : List (κ × α) → List (κ × α)
  | [] => []
  | (k', v') :: rest =>
    if k' = k then rest else (k', v') :: erase k rest

/-- Python's `list(dict.keys())` in insertion order. -/
def keys (l : List (κ × α)) : List κ := l.map Prod.fst

end AL

/-! ## Canonical JSON values and `json.dumps(..., sort_keys=True)`

The Python code serialises every hashed value with
`json.dumps(value, sort_keys=True)` (default separators `", "` and `": "`,
`ensure_ascii=True`).  `Js` embeds exactly the value shapes the sources
build: strings, integers, exact decimals, booleans, null, arrays and
string-keyed objects. -/

inductive Js where
  | str (s : String)
  | int (n : Int)
  | rat (q : ℚ)
  | bool (b : Bool)
  | null
  | arrNil
  | arrCons (head : Js) (tail : Js)
  | objNil
  | objCons (key : String) (val : Js) (tail : Js)
  deriving Repr, BEq

/-- Build an object node from a key-value list. -/
def jsObjOf (l : List (String × Js)) : Js :=
  l.foldr (fun p acc => .objCons p.1 p.2 acc) .objNil

/-- Build an array node from a list. -/
def jsArrOf (l : List Js) : Js :=
  l.foldr (fun v acc => .arrCons v acc) .arrNil

namespace Js

/-- Decimal rendering of the exact fixed-point quantities the ledger uses
(spec §4.1 mandates fixed-precision decimals; the concrete states hashed by
the theorems below only carry integer-valued quantities, rendered exactly
as CPython renders `int`s). -/
def renderRat (q : ℚ) : String :=
  if q.den = 1 then toString q.num
  else toString q.num ++ "/" ++ toString q.den

/-- JSON string escaping (`ensure_ascii=True`); the identity on the plain
printable-ASCII data the sources serialise. -/
def escapeChar (c : Char) : String :=
  if c = '"' then "\\\""
  else if c = '\\' then "\\\\"
  else if c = '\n' then "\\n"
  else if c = '\r' then "\\r"
  else if c = '\t' then "\\t"
  else if c.toNat = 0x08 then "\\b"
  else if c.toNat = 0x0c then "\\f"
  else if c.toNat < 0x20 ∨ c.toNat > 0x7e then
    let hex := Nat.toDigits 16 c.toNat
    let pad := List.replicate (4 - hex.length) '0'
    "\\u" ++ String.mk (pad ++ hex)
  else String.singleton c

def quoteStr (s : String) : String :=
  "\"" ++ String.join (s.data.map escapeChar) ++ "\""

/-- Insert a key-value pair into an already-sorted object chain, ascending
code-point order of keys. -/
def insertField (k : String) (v : Js) : Js → Js
  | .objCons k' v' t =>
    if k ≤ k' then .objCons k v (.objCons k' v' t)
    else .objCons k' v' (insertField k v t)
  | other => .objCons k v other

/-- Recursively sort every object's fields by key (`sort_keys=True`). -/
def sortJs : Js → Js
  | .str s => .str s
  | .int n => .int n
  | .rat q => .rat q
  | .bool b => .bool b
  | .null => .null
  | .arrNil => .arrNil
  | .arrCons h t => .arrCons (sortJs h) (sortJs t)
  | .objNil => .objNil
  | .objCons k v t => insertField k (sortJs v) (sortJs t)

/-- Serialisation with the default separators `", "` and `": "`.  The
`tail` flag renders continuation cells of an array/object chain (with a
leading `", "`); the entry point uses `tail := false`. -/
def emitAux : Bool → Js → String
  | _, .str s => quoteStr s
  | _, .int n => toString n
  | _, .rat q => renderRat q
  | _, .bool b => if b then "true" else "false"
  | _, .null => "null"
  | false, .arrNil => "[]"
  | false, .arrCons h t => "[" ++ emitAux false h ++ emitAux true t ++ "]"
  | false, .objNil => "\x7b\x7d"
  | false, .objCons k v t =>
    "\x7b" ++ quoteStr k ++ ": " ++ emitAux false v ++ emitAux true t ++ "\x7d"
  | true, .arrNil => ""
  | true, .arrCons h t => ", " ++ emitAux false h ++ emitAux true t
  | true, .objNil => ""
  | true, .objCons k v t =>
    ", " ++ quoteStr k ++ ": " ++ emitAux false v ++ emitAux true t

/-- Python's `json.dumps(v, sort_keys=True)`. -/
def dumps (v : Js) : String := emitAux false (sortJs v)

end Js

/-! ## SHA-256 (`hashlib.sha256(...).hexdigest()`) -/

namespace SHA256

def mask32 : Nat := 0xffffffff

def rotr (x n : Nat) : Nat := ((x >>> n) ||| (x <<< (32 - n))) &&& mask32

/-- Round constants. -/
def K : List Nat :=
  [0x428A2F98, 0x71374491, 0xB5C0FBCF, 0xE9B5DBA5, 0x3956C25B, 0x59F111F1,
   0x923F82A4, 0xAB1C5ED5, 0xD807AA98, 0x12835B01, 0x243185BE, 0x550C7DC3,
   0x72BE5D74, 0x80DEB1FE, 0x9BDC06A7, 0xC19BF174, 0xE49B69C1, 0xEFBE4786,
   0x0FC19DC6, 0x240CA1CC, 0x2DE92C6F, 0x4A7484AA, 0x5CB0A9DC, 0x76F988DA,
   0x983E5152, 0xA831C66D, 0xB00327C8, 0xBF597FC7, 0xC6E00BF3, 0xD5A79147,
   0x06CA6351, 0x14292967, 0x27B70A85, 0x2E1B2138, 0x4D2C6DFC, 0x53380D13,
   0x650A7354, 0x766A0ABB, 0x81C2C92E, 0x92722C85, 0xA2BFE8A1, 0xA81A664B,
   0xC24B8B70, 0xC76C51A3, 0xD192E819, 0xD6990624, 0xF40E3585, 0x106AA070,
   0x19A4C116, 0x1E376C08, 0x2748774C, 0x34B0BCB5, 0x391C0CB3, 0x4ED8AA4A,
   0x5B9CCA4F, 0x682E6FF3, 0x748F82EE, 0x78A5636F, 0x84C87814, 0x8CC70208,
   0x90BEFFFA, 0xA4506CEB, 0xBEF9A3F7, 0xC67178F2]

def initH : List Nat :=
  [0x6A09E667, 0xBB67AE85, 0x3C6EF372, 0xA54FF53A,
   0x510E527F, 0x9B05688C, 0x1F83D9AB, 0x5BE0CD19]

/-- Pad the byte stream: `0x80`, zeros to 56 mod 64, 64-bit big-endian
bit length. -/
def pad (msg : List Nat) : List Nat :=
  let len := msg.length
  let bitLen := len * 8
  let zeros := (64 + 56 - (len + 1) % 64) % 64
  msg ++ [0x80] ++ List.replicate zeros 0 ++
    ((List.range 8).map fun i => (bitLen >>> ((7 - i) * 8)) &&& 0xff)

/-- Split into 64-byte blocks (the counter starts at the byte length, an
upper bound on the number of blocks, so it never runs out). -/
def blocksGo : Nat → List Nat → List (List Nat)
  | _, [] => []
  | 0, _ :: _ => []
  | n + 1, b :: bs => ((b :: bs).take 64) :: blocksGo n ((b :: bs).drop 64)

def blocks (bs : List Nat) : List (List Nat) := blocksGo bs.length bs

/-- Message schedule: expand the 16-word list by one word (`i` is the
current length of `w`). -/
def scheduleStep (w : List Nat) : List Nat :=
  let i := w.length
  let w15 := w.getD (i - 15) 0
  let w2 := w.getD (i - 2) 0
  let s0 := (rotr w15 7) ^^^ (rotr w15 18) ^^^ (w15 >>> 3)
  let s1 := (rotr w2 17) ^^^ (rotr w2 19) ^^^ (w2 >>> 10)
  let wi := (w.getD (i - 16) 0 + s0 + w.getD (i - 7) 0 + s1) &&& mask32
  w ++ [wi]

/-- Expand 16 words to 64 by 48 schedule steps. -/
def schedule (w : List Nat) : Nat → List Nat
  | 0 => w
  | n + 1 => schedule (scheduleStep w) n

/-- One compression round. -/
def round (st : List Nat) (ki wi : Nat) : List Nat :=
  match st with
  | [a, b, c, d, e, f, g, h] =>
    let s1 := (rotr e 6) ^^^ (rotr e 11) ^^^ (rotr e 25)
    let ch := (e &&& f) ^^^ ((mask32 ^^^ e) &&& g)
    let t1 := (h + s1 + ch + ki + wi) &&& mask32
    let s0 := (rotr a 2) ^^^ (rotr a 13) ^^^ (rotr a 22)
    let mj := (a &&& b) ^^^ (a &&& c) ^^^ (b &&& c)
    let t2 := (s0 + mj) &&& mask32
    [(t1 + t2) &&& mask32, a, b, c, (d + t1) &&& mask32, e, f, g]
  | st => st

/-- Process one 64-byte block. -/
def compress (hs : List Nat) (block : List Nat) : List Nat :=
  let w0 := (List.range 16).map fun i =>
    (block.getD (4 * i) 0 <<< 24) ||| (block.getD (4 * i + 1) 0 <<< 16) |||
    (block.getD (4 * i + 2) 0 <<< 8) ||| block.getD (4 * i + 3) 0
  let w := schedule w0 48
  let st := (List.zip K w).foldl (fun st p => round st p.1 p.2) hs
  (List.zip hs st).map fun p => (p.1 + p.2) &&& mask32

/-- UTF-8 encoding of a string as a byte list (`str.encode()`). -/
def charUtf8 (c : Char) : List Nat :=
  let n := c.toNat
  if n < 0x80 then [n]
  else if n < 0x800 then [0xc0 ||| (n >>> 6), 0x80 ||| (n &&& 0x3f)]
  else if n < 0x10000 then
    [0xe0 ||| (n >>> 12), 0x80 ||| ((n >>> 6) &&& 0x3f), 0x80 ||| (n &&& 0x3f)]
  else
    [0xf0 ||| (n >>> 18), 0x80 ||| ((n >>> 12) &&& 0x3f),
     0x80 ||| ((n >>> 6) &&& 0x3f), 0x80 ||| (n &&& 0x3f)]

def utf8Bytes (s : String) : List Nat := s.data.flatMap charUtf8

def hexDigit (n : Nat) : Char :=
  if n < 10 then Char.ofNat (48 + n) else Char.ofNat (87 + n)

def toHex32 (x : Nat) : String :=
  String.mk ((List.range 8).map fun i => hexDigit ((x >>> ((7 - i) * 4)) &&& 0xf))

/-- Python's `hashlib.sha256(s.encode()).hexdigest()`. -/
def sha256Hex (s : String) : String :=
  let hs := (blocks (pad (utf8Bytes s))).foldl compress initH
  String.join (hs.map toHex32)

end SHA256

export SHA256 (sha256Hex)

/-! ## CPython's `random` module (MT19937)

`consensus.get_selected_miners`, `libre_network_gui.get_selected_miners`
and `libre_network_gui.create_group` call `random.seed(int)` followed by
`random.sample(list, k)`.  This section embeds exactly the CPython
behaviour of those calls: the MT19937 generator, integer seeding through
`init_by_array`, `getrandbits`, `Random._randbelow_with_getrandbits` and
`Random.sample`.

The 624-word generator state is packed into a single `Nat` (word `i`
occupies bits `[32*i, 32*i+32)`), so state updates are plain arithmetic on
one big number.  Retry loops (`_randbelow`, the selection-set branch of
`sample`) are given explicit fuel and return `none` on exhaustion, so a
result `some _` certifies that the embedded run matches the Python run. -/

namespace PyRandom

def mask32 : Nat := 0xffffffff

/-- The loop of `int.bit_length()`: count halvings until zero (the fuel
starts at `n`, which always suffices since `n` bounds its bit length). -/
def bitLenGo : Nat → Nat → Nat
  | 0, _ => 0
  | fuel + 1, n => if n = 0 then 0 else bitLenGo fuel (n / 2) + 1

/-- Python's `n.bit_length()`. -/
def bitLen (n : Nat) : Nat := bitLenGo n n

/-- Read 32-bit word `i` of the packed state. -/
def wget (w i : Nat) : Nat := (w >>> (32 * i)) &&& mask32

/-- Write 32-bit word `i` of the packed state. -/
def wset (w i v : Nat) : Nat := w - ((wget w i) <<< (32 * i)) + (v <<< (32 * i))

/-- Strict continuation application for a `Nat` accumulator: the equality
test forces the accumulator to a numeral before the continuation runs, so
kernel reduction of the long seeding/twist loops stays stack-shallow.
Semantically this is just `k n`. -/
def forceNat (n : Nat) (k : Nat → α) : α := if n = 0 then k n else k n

/-- The loop of `init_genrand`: `count` remaining iterations, writing word
`i` each step. -/
def initGenrandGo : Nat → Nat → Nat → Nat
  | 0, _, mt => mt
  | count + 1, i, mt =>
    let prev := wget mt (i - 1)
    forceNat (wset mt i ((1812433253 * (prev ^^^ (prev >>> 30)) + i) &&& mask32))
      fun mt' => initGenrandGo count (i + 1) mt'

/-- Python's `init_genrand(s)`: the reference MT19937 scalar initialisation. -/
def initGenrand (s : Nat) : Nat :=
  initGenrandGo 623 1 (wset 0 0 (s &&& mask32))

/-- First mixing loop of `init_by_array`: `k = max(624, len(key))` steps. -/
def ibaLoop1 (key : List Nat) (klen : Nat) : Nat → Nat → Nat → Nat → Nat × Nat
  | 0, i, _, mt => (mt, i)
  | count + 1, i, j, mt =>
    let prev := wget mt (i - 1)
    let v := ((wget mt i ^^^ ((prev ^^^ (prev >>> 30)) * 1664525)) + key.getD j 0 + j) &&& mask32
    let mt := wset mt i v
    let i := i + 1
    let j := j + 1
    let (mt, i) := if i ≥ 624 then (wset mt 0 (wget mt 623), 1) else (mt, i)
    let j := if j ≥ klen then 0 else j
    forceNat mt fun mt' => ibaLoop1 key klen count i j mt'

/-- Second mixing loop of `init_by_array`: 623 steps, `mt[i] -= i` in
32-bit arithmetic. -/
def ibaLoop2 : Nat → Nat → Nat → Nat
  | 0, _, mt => mt
  | count + 1, i, mt =>
    let prev := wget mt (i - 1)
    let v := ((wget mt i ^^^ ((prev ^^^ (prev >>> 30)) * 1566083941)) + (2 ^ 32 - i)) &&& mask32
    let mt := wset mt i v
    let i := i + 1
    let (mt, i) := if i ≥ 624 then (wset mt 0 (wget mt 623), 1) else (mt, i)
    forceNat mt fun mt' => ibaLoop2 count i mt'

/-- Python's `init_by_array(key)`: the reference MT19937 array initialisation used
by CPython's `random.seed(int)`. -/
def initByArray (key : List Nat) : Nat :=
  let klen := key.length
  let (mt1, i1) := ibaLoop1 key klen (max 624 klen) 1 0 (initGenrand 19650218)
  let mt2 := ibaLoop2 623 i1 mt1
  wset mt2 0 0x80000000

/-- Generator state: packed word array plus the output index. -/
structure MT where
  words : Nat
  mti : Nat

/-- Python's `random.seed(a)` for a non-negative int `a`: split `|a|` into 32-bit
little-endian chunks and run `init_by_array`. -/
def pySeed (a : Nat) : MT :=
  let bits := bitLen a
  let keymax := if bits = 0 then 1 else (bits - 1) / 32 + 1
  let key := (List.range keymax).map fun i => (a >>> (32 * i)) &&& mask32
  { words := initByArray key, mti := 624 }

/-- The loop of the MT19937 state twist. -/
def twistGo : Nat → Nat → Nat → Nat
  | 0, _, mt => mt
  | count + 1, kk, mt =>
    let y := (wget mt kk &&& 0x80000000) ||| (wget mt ((kk + 1) % 624) &&& 0x7fffffff)
    let v := wget mt ((kk + 397) % 624) ^^^ (y >>> 1) ^^^
      (if y &&& 1 = 1 then 0x9908b0df else 0)
    forceNat (wset mt kk v) fun mt' => twistGo count (kk + 1) mt'

/-- The MT19937 state twist, regenerating all 624 words. -/
def twist (w : Nat) : Nat := twistGo 624 0 w

/-- Python's `genrand_uint32`: one tempered 32-bit output. -/
def genrand (st : MT) : Nat × MT :=
  let w := if st.mti ≥ 624 then twist st.words else st.words
  let idx := if st.mti ≥ 624 then 0 else st.mti
  let y0 := wget w idx
  let y1 := y0 ^^^ (y0 >>> 11)
  let y2 := y1 ^^^ ((y1 <<< 7) &&& 0x9d2c5680)
  let y3 := y2 ^^^ ((y2 <<< 15) &&& 0xefc60000)
  let y4 := y3 ^^^ (y3 >>> 18)
  (y4, { words := w, mti := idx + 1 })

/-- The word loop of `random.getrandbits(k)`: one 32-bit word per
iteration, little-endian, the top word truncated from above. -/
def grbWords : Nat → MT → Nat → Nat → Nat × MT
  | 0, st, _, _ => (0, st)
  | w + 1, st, k, shift =>
    let (r, st') := genrand st
    let r := if k < 32 then r >>> (32 - k) else r
    let (rest, st'') := grbWords w st' (k - 32) (shift + 32)
    ((r <<< shift) + rest, st'')

/-- Python's `random.getrandbits(k)`. -/
def getrandbits (st : MT) (k : Nat) : Nat × MT :=
  grbWords ((k + 31) / 32) st k 0

/-- Python's `Random._randbelow_with_getrandbits(n)`: draw `k = n.bit_length()`
bits, retry while the draw is `≥ n`. -/
def randbelow : Nat → MT → Nat → Option (Nat × MT)
  | 0, _, _ => none
  | fuel + 1, st, n =>
    let k := bitLen n
    let (r, st') := getrandbits st k
    if r < n then some (r, st') else randbelow fuel st' n

/-- The partial-Fisher-Yates branch of `Random.sample` (`n <= setsize`):
`j = randbelow(active); result.append(pool[j]); pool[j] = pool[active-1]`.
`a` is the number of still-active slots at the front of `pool`. -/
def samplePool (fuel : Nat) : MT → List String → Nat → Nat → List String →
    Option (List String × MT)
  | st, _, _, 0, acc => some (acc.reverse, st)
  | st, pool, a, m + 1, acc =>
    match randbelow fuel st a with
    | none => none
    | some (j, st') =>
      let x := pool.getD j ""
      samplePool fuel st' (pool.set j (pool.getD (a - 1) "")) (a - 1) m (x :: acc)

/-- The inner `while j in selected` retry loop of `Random.sample`'s
selection-set branch. -/
def pickFresh : Nat → MT → Nat → List Nat → Option (Nat × MT)
  | 0, _, _, _ => none
  | fuel + 1, st, n, selected =>
    match randbelow fuel st n with
    | none => none
    | some (j, st') =>
      if j ∈ selected then pickFresh fuel st' n selected else some (j, st')

/-- The selection-set branch of `Random.sample` (`n > setsize`). -/
def sampleSel (fuel : Nat) (population : List String) (n : Nat) :
    MT → List Nat → Nat → List String → Option (List String × MT)
  | st, _, 0, acc => some (acc.reverse, st)
  | st, selected, m + 1, acc =>
    match pickFresh fuel st n selected with
    | none => none
    | some (j, st') =>
      sampleSel fuel population n st' (j :: selected) m (population.getD j "" :: acc)

/-- Python's `ceil(log(x, 4))` for `1 ≤ x < 4^32`: the least `m` with `x ≤ 4^m`. -/
def ceilLog4 (x : Nat) : Nat :=
  ((List.range 32).find? fun m => x ≤ 4 ^ m).getD 32

/-- Python's `Random.sample(population, k)`.  `setsize` follows the CPython source:
`21`, plus `4 ** ceil(log(k * 3, 4))` when `k > 5` (the float logarithm is
exact as `ceilLog4` at every `k` the ledger uses). -/
def pySample (fuel : Nat) (st : MT) (population : List String) (k : Nat) :
    Option (List String × MT) :=
  let n := population.length
  if k > n then none
  else
    let setsize := 21 + (if 5 < k then 4 ^ ceilLog4 (3 * k) else 0)
    if n ≤ setsize then samplePool fuel st population n k []
    else sampleSel fuel population n st [] k []

end PyRandom

/-- Python's `int(s, 16)` on a hex string. -/
def hexVal (s : String) : Nat :=
  s.data.foldl
    (fun acc c =>
      let d :=
        if '0' ≤ c ∧ c ≤ '9' then c.toNat - 48
        else if 'a' ≤ c ∧ c ≤ 'f' then c.toNat - 87
        else if 'A' ≤ c ∧ c ≤ 'F' then c.toNat - 55
        else 0
      acc * 16 + d)
    0

/-! ## Data model

The record shapes below mirror the dictionaries the Python sources build:
users (`{"address", "balance", "nonce", "life"}`), transactions (the
nine-key shape built by `add_tx`, or the four-key literal the executor
synthesises for the reward), the current group (the shape written by
`create_group`), signature bundles, and block rows (the `blocks` table of
`storage.py`). -/

structure UserR where
  address : String
  balance : ℚ
  nonce : Int
  life : Int
  deriving Repr, DecidableEq, Inhabited

structure Tx where
  tx_id : String
  type : String
  fromAddr : String
  toAddr : String
  amount : ℚ
  fee : ℚ
  nonce : Int
  timestamp : Int
  signature : String
  deriving Repr, DecidableEq

structure GroupT where
  group_id : Int
  miners : List (String × Int)
  created_at : Int
  updates : Int
  deriving Repr, DecidableEq

/-- The snapshot tuple: the proposed-state dictionary built by
`execute_transactions` and hashed everywhere in the GUI layer. -/
structure Snapshot where
  users : List (String × UserR)
  miner_pool : List (String × Int)
  current_group : GroupT
  tx_executed : List (String × Tx)
  deriving Repr, DecidableEq

structure SigData where
  state_hash : String
  signer : String
  signature : String
  deriving Repr, DecidableEq

/-- A block file written by `Main.apply_final_state` (GUI layer). -/
structure BlockG where
  block_number : Int
  state_hash : String
  signatures : List SigData
  timestamp : Int
  deriving Repr, DecidableEq

/-- The `libre_data/*.json` file-backed state of `libre_network_gui.py`. -/
structure FS where
  users : List (String × UserR)
  tx_pool : List (String × Tx)
  tx_executed : List (String × Tx)
  miner_pool : List (String × Int)
  current_group : GroupT
  blocks : List BlockG
  groups_dir : List GroupT
  deriving Repr, DecidableEq

/-- A row of the `blocks` table in `storage.py`. -/
structure Block where
  block_number : Int
  prev_hash : String
  state_hash : String
  combined_hash : String
  group_id : Int
  miner : String
  timestamp : Int
  executed_tx_count : Int
  signatures : List SigData
  deriving Repr, DecidableEq

/-- A row of the `groups` table in `storage.py`. -/
structure GroupRow where
  group_id : Int
  miners : List (String × Int)
  created_at : Int
  deriving Repr, DecidableEq

/-- The SQLite database of `storage.py` (the tables the consensus core
touches). -/
structure DB where
  users : List (String × UserR)
  miner_pool : List (String × Int)
  groups : List (Int × GroupRow)
  blocks : List (Int × Block)
  deriving Repr, DecidableEq

/-! ### JSON encodings of the data model (the shapes `json.dumps` sees) -/

def userToJson (u : UserR) : Js :=
  jsObjOf [("address", .str u.address), ("balance", .rat u.balance),
           ("nonce", .int u.nonce), ("life", .int u.life)]

def usersToJson (users : List (String × UserR)) : Js :=
  jsObjOf (users.map fun p => (p.1, userToJson p.2))

def minerPoolToJson (pool : List (String × Int)) : Js :=
  jsObjOf (pool.map fun p => (p.1, .int p.2))

/-- Reward transactions are the four-key literal from
`execute_transactions`; every other transaction is the nine-key dictionary
built by `add_tx` and gossiped into the pool. -/
def txToJson (tx : Tx) : Js :=
  if tx.type = "reward" then
    jsObjOf [("tx_id", .str tx.tx_id), ("type", .str tx.type),
             ("to", .str tx.toAddr), ("amount", .rat tx.amount)]
  else
    jsObjOf [("tx_id", .str tx.tx_id), ("type", .str tx.type),
             ("from", .str tx.fromAddr), ("to", .str tx.toAddr),
             ("amount", .rat tx.amount), ("fee", .rat tx.fee),
             ("nonce", .int tx.nonce), ("timestamp", .int tx.timestamp),
             ("signature", .str tx.signature)]

def txMapToJson (txs : List (String × Tx)) : Js :=
  jsObjOf (txs.map fun p => (p.1, txToJson p.2))

def groupToJson (g : GroupT) : Js :=
  jsObjOf [("group_id", .int g.group_id),
           ("miners", minerPoolToJson g.miners),
           ("created_at", .int g.created_at), ("updates", .int g.updates)]

def groupRowToJson (g : GroupRow) : Js :=
  jsObjOf [("group_id", .int g.group_id),
           ("miners", minerPoolToJson g.miners),
           ("created_at", .int g.created_at)]

/-- The snapshot dictionary
`{"users": ..., "miner_pool": ..., "current_group": ..., "tx_executed": ...}`
hashed by `compute_state_hash`, `mine` and `on_receive_update_request`. -/
def stateToJson (st : Snapshot) : Js :=
  jsObjOf [("users", usersToJson st.users),
           ("miner_pool", minerPoolToJson st.miner_pool),
           ("current_group", groupToJson st.current_group),
           ("tx_executed", txMapToJson st.tx_executed)]

/-! ## `consensus.py` -/

namespace Consensus

/-- Python's `Consensus.get_selected_miners(state_hash, group_miners_dict)`:
seed the global generator with `int(state_hash[:16], 16)`, take
`list(group_miners_dict.keys())` (dict insertion order), return it whole
when it has at most 100 entries, else `random.sample(addresses, 100)`. -/
def get_selected_miners (fuel : Nat) (state_hash : String)
    (group_miners_dict : List (String × Int)) : Option (List String) :=
  let seed := hexVal (state_hash.take 16)
  let g := PyRandom.pySeed seed
  let miner_addresses := AL.keys group_miners_dict
  if miner_addresses.length ≤ 100 then some miner_addresses
  else (PyRandom.pySample fuel g miner_addresses 100).map Prod.fst

/-- Python's `Consensus.verify_state_signature(address, state_hash, signature)`:
the body is a stub that returns `True` for every input. -/
def verify_state_signature (_address _state_hash _signature : String) : Bool :=
  true

/-- Python's `Consensus.verify_aggregated_signature(signatures, state_hash,
selected_miners)` (the reason string of the Python return pair is
dropped): count signatures whose signer is selected and unseen, require
at least 100 raw signatures and at least 100 valid ones. -/
def verify_aggregated_signature (signatures : List SigData)
    (state_hash : String) (selected_miners : List String) : Bool :=
  if signatures.length < 100 then false
  else
    let step := fun (s : Nat × List String) (sig : SigData) =>
      let (valid_count, seen_signers) := s
      if sig.signer ∈ selected_miners ∧ sig.signer ∉ seen_signers then
        if verify_state_signature sig.signer state_hash sig.signature then
          (valid_count + 1, sig.signer :: seen_signers)
        else s
      else s
    let (valid_count, _) := signatures.foldl step (0, [])
    decide (valid_count ≥ 100)

end Consensus

/-! ## `libre_network_gui.py` — consensus, groups, mining -/

namespace Gui

def DEFAULT_LIFE : Int := 20000000

/-- Python's `compute_state_hash()`: SHA-256 over the sorted-key JSON encoding of
`{"users", "miner_pool", "current_group", "tx_executed"}` read from the
state files. -/
def compute_state_hash (fs : FS) : String :=
  sha256Hex (Js.dumps (stateToJson
    { users := fs.users, miner_pool := fs.miner_pool,
      current_group := fs.current_group, tx_executed := fs.tx_executed }))

/-- Python's `sign_state_hash(private_key, state_hash)`. -/
def sign_state_hash (private_key state_hash : String) : String :=
  sha256Hex (state_hash ++ private_key)

/-- Python's `verify_state_signature(public_key, state_hash, signature)`: the body
is `return True` for every input. -/
def verify_state_signature (_public_key _state_hash _signature : String) : Bool :=
  true

/-- Python's `get_selected_miners(state_hash, current_group_miners)` (GUI layer):
identical to the consensus-layer selector except that the seed is
`int(state_hash, 16)` — the whole hash, not its first 16 characters. -/
def get_selected_miners (fuel : Nat) (state_hash : String)
    (current_group_miners : List (String × Int)) : Option (List String) :=
  let seed := hexVal state_hash
  let g := PyRandom.pySeed seed
  let miner_addresses := AL.keys current_group_miners
  if miner_addresses.length ≤ 100 then some miner_addresses
  else (PyRandom.pySample fuel g miner_addresses 100).map Prod.fst

/-- Python's `create_group()`: on a pool of at least 1000 miners, build group
`group_id + 1` (sampling 100000 addresses seeded by `group_id` when the
pool exceeds 100000, else taking the whole pool), write it as the current
group and into the groups directory, and clear the miner pool. -/
def create_group (fuel : Nat) (fs : FS) (timestamp : Int) : Bool × FS :=
  let current := fs.current_group
  let pool := fs.miner_pool
  let miner_addresses := AL.keys pool
  if miner_addresses.length < 1000 then (false, fs)
  else
    let group_id := current.group_id + 1
    let selected_miners :=
      if miner_addresses.length > 100000 then
        let g := PyRandom.pySeed group_id.natAbs
        match PyRandom.pySample fuel g miner_addresses 100000 with
        | some (lucky_miners, _) =>
          lucky_miners.map fun m => (m, (AL.lookup m pool).getD 0)
        | none => []
      else pool
    let group : GroupT :=
      { group_id := group_id, miners := selected_miners,
        created_at := timestamp, updates := 0 }
    (true,
     { fs with current_group := group,
               groups_dir := fs.groups_dir ++ [group],
               miner_pool := [] })

/-- Python's `decrease_life()`: decrement every user's `life`, drop users whose
decremented `life` is `≤ 0` (and write the result back to `USERS_FILE`;
the write is performed by the caller-visible `FS` update in
`execute_transactions`). -/
def decrease_life (users : List (String × UserR)) : List (String × UserR) :=
  (users.map fun p => (p.1, { p.2 with life := p.2.life - 1 })).filter
    fun p => ¬ p.2.life ≤ 0

/-- Python's `transfer_fee(amount)`. -/
def transfer_fee (amount : ℚ) : ℚ := max 0.000001 (amount * 0.0001)

/-- One iteration of the transaction loop in `execute_transactions`. -/
def execTx (now : Int)
    (s : List (String × UserR) × List (String × Int) × List (String × Tx))
    (p : String × Tx) :
    List (String × UserR) × List (String × Int) × List (String × Tx) :=
  let (users, miner_pool, executed) := s
  let (txid, tx) := p
  let t := tx.type
  let sender := tx.fromAddr
  if ¬ AL.hasKey sender users then s
  else
    let senderBal := ((AL.lookup sender users).getD default).balance
    let (users', miner_pool', valid) :=
      if t = "transfer" then
        let receiver := tx.toAddr
        let amount := tx.amount
        let fee := tx.fee
        if AL.hasKey receiver users ∧ senderBal ≥ amount + fee then
          (AL.update receiver (fun u => { u with balance := u.balance + amount })
            (AL.update sender (fun u => { u with balance := u.balance - (amount + fee) }) users),
           miner_pool, true)
        else (users, miner_pool, false)
      else if t = "new_account" then
        let addr := tx.toAddr
        let fee := tx.fee
        if ¬ AL.hasKey addr users ∧ senderBal ≥ fee then
          (AL.insert addr
            { address := addr, balance := 0, nonce := 0, life := DEFAULT_LIFE }
            (AL.update sender (fun u => { u with balance := u.balance - fee }) users),
           miner_pool, true)
        else (users, miner_pool, false)
      else if t = "join_pool" then
        let fee := tx.fee
        if senderBal ≥ fee then
          (AL.update sender (fun u => { u with balance := u.balance - fee }) users,
           if AL.hasKey sender miner_pool then miner_pool
           else AL.insert sender now.natAbs miner_pool,
           true)
        else (users, miner_pool, false)
      else (users, miner_pool, false)
    if valid then
      (AL.update sender (fun u => { u with nonce := u.nonce + 1 }) users',
       miner_pool', AL.insert txid tx executed)
    else (users', miner_pool', executed)

/-- Python's `execute_transactions(miner)`: build the proposed state.  Returns the
proposed snapshot (or `none` on the early-exit paths) together with the
file state after the run — `decrease_life()` *writes* the decremented
users file even though the docstring promises no disk writes. -/
def execute_transactions (fs : FS) (miner : String) (now : Int) :
    Option Snapshot × FS :=
  if ¬ AL.hasKey miner fs.users then (none, fs)
  else
    let group := fs.current_group
    if ¬ AL.hasKey miner group.miners then (none, fs)
    else
      let users1 := decrease_life fs.users
      let fs1 := { fs with users := users1 }
      if ¬ AL.hasKey miner users1 then (none, fs1)
      else
        let pool := fs.tx_pool
        let (users2, miner_pool2, executed) :=
          pool.foldl (execTx now) (users1, fs.miner_pool, [])
        let reward_id := "reward_" ++ toString now
        let users3 :=
          AL.update miner (fun u => { u with balance := u.balance + 100 }) users2
        let rewardTx : Tx :=
          { tx_id := reward_id, type := "reward", fromAddr := "",
            toAddr := miner, amount := 100, fee := 0, nonce := 0,
            timestamp := 0, signature := "" }
        let executed' := AL.insert reward_id rewardTx executed
        (some { users := users3, miner_pool := miner_pool2,
                current_group := group, tx_executed := executed' }, fs1)

/-- Python's `mine(miner)`: execute, then hash the proposed state with
`sha256(json.dumps(state, sort_keys=True))`. -/
def mine (fs : FS) (miner : String) (now : Int) :
    Option (Snapshot × String) × FS :=
  match execute_transactions fs miner now with
  | (none, fs') => (none, fs')
  | (some state, fs') =>
    (some (state, sha256Hex (Js.dumps (stateToJson state))), fs')

/-- Python's `Main.apply_final_state(state, signatures)`: overwrite the users,
miner-pool and current-group files from the finalized state, write a new
block file, overwrite `tx_executed`, and clear the transaction pool. -/
def apply_final_state (fs : FS) (state : Snapshot) (signatures : List SigData)
    (now : Int) : FS :=
  let block_number : Int := fs.blocks.length + 1
  let block : BlockG :=
    { block_number := block_number,
      state_hash := sha256Hex (Js.dumps (stateToJson state)),
      signatures := signatures, timestamp := now }
  { fs with
    users := state.users,
    miner_pool := state.miner_pool,
    current_group := state.current_group,
    blocks := fs.blocks ++ [block],
    tx_executed := state.tx_executed,
    tx_pool := [] }

/-- The consensus-coordinator state of `Main`: `pending_updates`
(`hash -> update_data`), `collected_signatures` (`hash -> list`), and the
file-backed node state. -/
structure CoordState where
  pending : List (String × Snapshot)
  collected : List (String × List SigData)
  fs : FS
  deriving Repr, DecidableEq

/-- Python's `Main.on_receive_signature(sig_data)`: if the signature's state hash
has a collection slot, append the signature unconditionally; when the
collection reaches 100 and the hash has a pending update, broadcast
`FINAL_UPDATE`, apply the state locally and drop the round.  The returned
flag records whether the round finalized. -/
def on_receive_signature (st : CoordState) (sig_data : SigData) (now : Int) :
    CoordState × Bool :=
  let state_hash := sig_data.state_hash
  match AL.lookup state_hash st.collected with
  | none => (st, false)
  | some sigs =>
    let sigs' := sigs ++ [sig_data]
    if sigs'.length ≥ 100 then
      match AL.lookup state_hash st.pending with
      | some update_state =>
        let fs' := apply_final_state st.fs update_state sigs' now
        ({ pending := AL.erase state_hash st.pending,
           collected := AL.erase state_hash st.collected, fs := fs' }, true)
      | none =>
        ({ st with collected := AL.insert state_hash sigs' st.collected }, false)
    else
      ({ st with collected := AL.insert state_hash sigs' st.collected }, false)

end Gui

/-! ## `storage.py` -/

namespace Store

/-- Python's `Storage.save_block(block_data)`: `INSERT OR REPLACE` keyed on
`block_number` — no contiguity validation of any kind, and no error
path. -/
def save_block (db : DB) (b : Block) : DB :=
  { db with blocks := AL.insert b.block_number b db.blocks }

/-- Python's `Storage.get_latest_block()`: `ORDER BY block_number DESC LIMIT 1`. -/
def get_latest_block (db : DB) : Option Block :=
  db.blocks.foldl
    (fun acc p =>
      match acc with
      | none => some p.2
      | some b => if p.2.block_number > b.block_number then some p.2 else some b)
    none

/-- Python's `Storage.get_block_count()`. -/
def get_block_count (db : DB) : Nat := db.blocks.length

/-- Python's `Storage.save_group(group_id, miners_dict, created_at)`. -/
def save_group (db : DB) (group_id : Int) (miners : List (String × Int))
    (created_at : Int) : DB :=
  let row : GroupRow :=
    { group_id := group_id, miners := miners, created_at := created_at }
  { db with groups := AL.insert group_id row db.groups }

/-- Python's `Storage.get_latest_group()`: `ORDER BY group_id DESC LIMIT 1`. -/
def get_latest_group (db : DB) : Option GroupRow :=
  db.groups.foldl
    (fun acc p =>
      match acc with
      | none => some p.2
      | some g => if p.2.group_id > g.group_id then some p.2 else some g)
    none

/-- Python's `Storage.compute_state_hash()`: SHA-256 over the sorted-key JSON of
`{"users", "miner_pool", "latest_group", "latest_block_hash"}` — note the
key set: the latest group and the latest block's state hash stand where
the GUI layer hashes the current group and `tx_executed`. -/
def compute_state_hash (db : DB) : String :=
  let latest_group := get_latest_group db
  let latest_block := get_latest_block db
  sha256Hex (Js.dumps (jsObjOf
    [("users", usersToJson db.users),
     ("miner_pool", minerPoolToJson db.miner_pool),
     ("latest_group",
      match latest_group with
      | some g => groupRowToJson g
      | none => .null),
     ("latest_block_hash",
      .str (match latest_block with
            | some b => b.state_hash
            | none => String.mk (List.replicate 64 '0')))]))

end Store

/-! ## `blockchain.py` -/

namespace Chain

def zeros64 : String := String.mk (List.replicate 64 '0')

/-- The genesis block literal of `Blockchain.ensure_genesis`. -/
def genesis_block (now : Int) : Block :=
  { block_number := 0, prev_hash := zeros64, state_hash := zeros64,
    combined_hash := zeros64, group_id := 0, miner := "GENESIS",
    timestamp := now, executed_tx_count := 0, signatures := [] }

/-- Python's `Blockchain.ensure_genesis()`. -/
def ensure_genesis (db : DB) (now : Int) : DB :=
  if Store.get_block_count db = 0 then
    Store.save_block (Store.save_group db 0 [] now) (genesis_block now)
  else db

/-- Python's `Blockchain.create_block(state, miner, signatures, group_id)`:
block number `latest + 1`, previous hash `latest.state_hash`, state hash
from `Storage.compute_state_hash`, combined hash over the six-field header
dictionary.  `none` models the `TypeError` Python raises when the chain is
empty (unreachable after `ensure_genesis`). -/
def create_block (db : DB) (state : Snapshot) (miner : String)
    (signatures : List SigData) (group_id : Int) (now : Int) :
    Option (Block × DB) :=
  match Store.get_latest_block db with
  | none => none
  | some latest =>
    let block_number := latest.block_number + 1
    let state_hash := Store.compute_state_hash db
    let combined_hash := sha256Hex (Js.dumps (jsObjOf
      [("block_number", .int block_number),
       ("prev_hash", .str latest.state_hash),
       ("state_hash", .str state_hash),
       ("group_id", .int group_id),
       ("miner", .str miner),
       ("timestamp", .int now)]))
    let block : Block :=
      { block_number := block_number, prev_hash := latest.state_hash,
        state_hash := state_hash, combined_hash := combined_hash,
        group_id := group_id, miner := miner, timestamp := now,
        executed_tx_count := state.tx_executed.length,
        signatures := signatures }
    some (block, Store.save_block db block)

end Chain

/-! ## The specification's committee selector (§4.6), for comparison -/

/-- Ascending insertion of a string into a sorted list. -/
def insStr (a : String) : List String → List String
  | [] => [a]
  | b :: rest => if a ≤ b then a :: b :: rest else b :: insStr a rest

/-- Insertion sort, ascending code-point order. -/
def sortStr : List String → List String
  | [] => []
  | a :: rest => insStr a (sortStr rest)

/-- The committee selector as the specification words it (§4.6): "If
roster size ≤ 100, return the whole roster. Otherwise seed a pseudo-random
generator with the first 16 hex chars of `state_hash` interpreted as an
unsigned integer; draw 100 addresses without replacement from the roster
sorted in ascending address order."  This is the comparison target for the
claim about `get_selected_miners`; the repository's selectors are
`Consensus.get_selected_miners` and `Gui.get_selected_miners`. -/
def specSelectCommittee (fuel : Nat) (state_hash : String)
    (roster : List String) : Option (List String) :=
  if roster.length ≤ 100 then some roster
  else
    let g := PyRandom.pySeed (hexVal (state_hash.take 16))
    (PyRandom.pySample fuel g (sortStr roster) 100).map Prod.fst

/-! ## Concrete instances used by the counterexamples and witnesses -/

/-- Zero-padded 3-digit rendering, for generating address literals. -/
def num3 (n : Nat) : String :=
  (if n < 10 then "00" else if n < 100 then "0" else "") ++ toString n

/-- Zero-padded 4-digit rendering. -/
def num4 (n : Nat) : String :=
  (if n < 10 then "000" else if n < 100 then "00"
   else if n < 1000 then "0" else "") ++ toString n

/-- A 64-hex-character state hash: `"ab" * 32`. -/
def hashAB : String := String.join (List.replicate 32 "ab")

/-- A 101-address roster in ascending insertion order. -/
def roster101Fwd : List (String × Int) :=
  (List.range 101).map fun i => ("a" ++ num3 i, 0)

/-- The same 101 addresses inserted in descending order. -/
def roster101Rev : List (String × Int) :=
  ((List.range 101).reverse).map fun i => ("a" ++ num3 i, 0)

/-- Membership of an address in an optional committee. -/
def selMem (a : String) (o : Option (List String)) : Bool :=
  match o with
  | some l => l.contains a
  | none => false

def userM1 : UserR := { address := "m1", balance := 0, nonce := 0, life := 20000000 }

def groupM1 : GroupT := { group_id := 1, miners := [("m1", 0)], created_at := 0, updates := 0 }

def snapC1 : Snapshot :=
  { users := [("m1", userM1)], miner_pool := [], current_group := groupM1,
    tx_executed := [] }

def fsC1 : FS :=
  { users := [("m1", userM1)], tx_pool := [], tx_executed := [],
    miner_pool := [], current_group := groupM1, blocks := [], groups_dir := [] }

def sigS1 : SigData := { state_hash := "h1", signer := "s1", signature := "x" }

/-- A coordinator holding one pending proposal for `"h1"` with `n`
already-collected copies of the same signature. -/
def coordC1 (n : Nat) : Gui.CoordState :=
  { pending := [("h1", snapC1)], collected := [("h1", List.replicate n sigS1)],
    fs := fsC1 }

def groupC2 : GroupT := { group_id := 1, miners := [], created_at := 5, updates := 0 }

def fsC2 : FS :=
  { users := [], tx_pool := [], tx_executed := [], miner_pool := [],
    current_group := groupC2, blocks := [], groups_dir := [] }

def rowC2 : GroupRow := { group_id := 1, miners := [], created_at := 5 }

def dbC2 : DB := { users := [], miner_pool := [], groups := [(1, rowC2)], blocks := [] }

def fsC3 : FS :=
  { users := [("m1", { address := "m1", balance := 0, nonce := 0, life := 2 })],
    tx_pool := [], tx_executed := [], miner_pool := [],
    current_group := groupM1, blocks := [], groups_dir := [] }

/-- A transfer with a negative amount, as a gossiped pool entry. -/
def txNeg : Tx :=
  { tx_id := "t1", type := "transfer", fromAddr := "a1", toAddr := "b1",
    amount := -5, fee := 0, nonce := 0, timestamp := 0, signature := "" }

def fsC6 : FS :=
  { users := [("m1", userM1),
              ("a1", { address := "a1", balance := 0, nonce := 0, life := 20000000 }),
              ("b1", { address := "b1", balance := 0, nonce := 0, life := 20000000 })],
    tx_pool := [("t1", txNeg)], tx_executed := [], miner_pool := [],
    current_group := groupM1, blocks := [], groups_dir := [] }

/-- A well-formed transfer for the witness of the amended claim. -/
def txPos : Tx :=
  { tx_id := "t2", type := "transfer", fromAddr := "a1", toAddr := "b1",
    amount := 5, fee := 1, nonce := 0, timestamp := 0, signature := "" }

def fsC6w : FS :=
  { users := [("m1", userM1),
              ("a1", { address := "a1", balance := 10, nonce := 0, life := 20000000 }),
              ("b1", { address := "b1", balance := 0, nonce := 0, life := 20000000 })],
    tx_pool := [("t2", txPos)], tx_executed := [], miner_pool := [],
    current_group := groupM1, blocks := [], groups_dir := [] }

def dbGen : DB :=
  Chain.ensure_genesis { users := [], miner_pool := [], groups := [], blocks := [] } 3

/-- A block that is neither contiguous with the genesis chain
(`block_number = 5`) nor linked to it (`prev_hash = "f" * 64`). -/
def blockGap : Block :=
  { block_number := 5, prev_hash := String.mk (List.replicate 64 'f'),
    state_hash := String.mk (List.replicate 64 'e'), combined_hash := "",
    group_id := 1, miner := "m1", timestamp := 4, executed_tx_count := 0,
    signatures := [] }

def pool1000 : List (String × Int) :=
  (List.range 1000).map fun i => ("p" ++ num4 i, 0)

def fsC9 : FS :=
  { users := [("m1", userM1)], tx_pool := [], tx_executed := [],
    miner_pool := pool1000, current_group := groupM1, blocks := [],
    groups_dir := [] }

def roster2a : List (String × Int) := [("a1", 0), ("b1", 0)]

def roster2b : List (String × Int) := [("b1", 0), ("a1", 0)]

/-! ## Helper lemmas -/

theorem AL.lookup_insert_self {κ α : Type} [DecidableEq κ] (k : κ) (v : α)
    (l : List (κ × α)) : AL.lookup k (AL.insert k v l) = some v := by
  induction l with
  | nil => simp [AL.insert, AL.lookup]
  | cons p rest ih =>
    obtain ⟨k0, v0⟩ := p
    by_cases h : k0 = k
    · subst h; simp [AL.insert, AL.lookup]
    · simp [AL.insert, AL.lookup, h, ih]

theorem AL.lookup_insert_ne {κ α : Type} [DecidableEq κ] (k k' : κ) (v : α)
    (hne : k' ≠ k) (l : List (κ × α)) :
    AL.lookup k' (AL.insert k v l) = AL.lookup k' l := by
  have hne' : k ≠ k' := Ne.symm hne
  induction l with
  | nil => simp [AL.insert, AL.lookup, hne']
  | cons p rest ih =>
    obtain ⟨k0, v0⟩ := p
    by_cases h : k0 = k
    · subst h; simp [AL.insert, AL.lookup, hne']
    · by_cases h' : k0 = k'
      · simp [AL.insert, AL.lookup, h, h', hne]
      · simp [AL.insert, AL.lookup, h, h', ih]

/-! ## The claims -/

/-- C10: state-signature verification is vacuous — both the
consensus-layer `verify_state_signature` and the GUI-layer
`verify_state_signature` return `True` on every input (any address or
public key, any state hash, any signature bytes, including empty or
arbitrary ones), so no signature is ever rejected as cryptographically
invalid. -/
theorem c10_signature_verification_vacuous (address state_hash signature : String) :
    Consensus.verify_state_signature address state_hash signature = true ∧
    Gui.verify_state_signature address state_hash signature = true :=
  ⟨rfl, rfl⟩

/-- C3 (code evaluated at the failing input): `execute_transactions`
writes the life-decremented users map to the persisted users file while
building the proposed state, contradicting its own docstring "Does NOT
write to disk yet": on a state whose single user `"m1"` has `life = 2`,
the run succeeds yet the persisted users after the call differ from the
persisted users before it (`life` is now `1`). -/
theorem c3_executor_mutates_persisted_users :
    (Gui.execute_transactions fsC3 "m1" 7).2.users ≠ fsC3.users ∧
    (Gui.execute_transactions fsC3 "m1" 7).2.users =
      [("m1", { address := "m1", balance := 0, nonce := 0, life := 1 })] ∧
    (Gui.execute_transactions fsC3 "m1" 7).1.isSome = true := by
  refine ⟨?_, by decide!, by decide!⟩
  decide!

/-- C8: the transaction pool is left intact by proposal construction —
`execute_transactions` (and hence `mine`) returns a file state with the
pool unchanged — and `apply_final_state` leaves the pool empty,
unconditionally, whether or not every pooled transaction was executed. -/
theorem c8_tx_pool_frame (fs : FS) (miner : String) (now : Int)
    (state : Snapshot) (signatures : List SigData) :
    (Gui.execute_transactions fs miner now).2.tx_pool = fs.tx_pool ∧
    (Gui.mine fs miner now).2.tx_pool = fs.tx_pool ∧
    (Gui.apply_final_state fs state signatures now).tx_pool = [] := by
  have hexec : (Gui.execute_transactions fs miner now).2.tx_pool = fs.tx_pool := by
    unfold Gui.execute_transactions
    dsimp only
    repeat' split <;> try rfl
  refine ⟨hexec, ?_, rfl⟩
  unfold Gui.mine
  split
  · next heq => rw [heq] at hexec; exact hexec
  · next heq => rw [heq] at hexec; exact hexec

/-- C2 (amended): within the GUI layer every state hash is SHA-256 of the
sorted-key JSON encoding of the snapshot tuple
`(users, miner_pool, current_group, tx_executed)`: in particular, the
file-reading `compute_state_hash` agrees with the hash that `mine`
attaches to a proposed state whenever the files hold the same snapshot
components.  (The storage layer does not: see the counterexample.) -/
theorem c2_gui_state_hash_agreement (fs fsx fsy : FS) (miner : String)
    (now : Int) (st : Snapshot) (h : String)
    (hm : Gui.mine fsx miner now = (some (st, h), fsy))
    (h1 : fs.users = st.users) (h2 : fs.miner_pool = st.miner_pool)
    (h3 : fs.current_group = st.current_group)
    (h4 : fs.tx_executed = st.tx_executed) :
    Gui.compute_state_hash fs = h := by
  have hmine : h = sha256Hex (Js.dumps (stateToJson st)) := by
    unfold Gui.mine at hm
    split at hm
    · exact absurd (Prod.mk.injEq .. ▸ hm).1 (by simp)
    · next st' fs' heq =>
      have := (Prod.mk.injEq .. ▸ hm).1
      injection this with this
      injection this with hst hh
      rw [← hh, hst]
  rw [hmine]
  unfold Gui.compute_state_hash
  rw [h1, h2, h3, h4]

/-- C2 (witness): one GUI round on the single-user state `fsC1`; the
file state holding the mined snapshot hashes to exactly the hash `mine`
reported. -/
theorem c2_gui_state_hash_agreement_witness :
    Gui.compute_state_hash
      { users := ((Gui.mine fsC1 "m1" 0).1.getD (snapC1, "")).1.users,
        tx_pool := [], tx_executed := ((Gui.mine fsC1 "m1" 0).1.getD (snapC1, "")).1.tx_executed,
        miner_pool := ((Gui.mine fsC1 "m1" 0).1.getD (snapC1, "")).1.miner_pool,
        current_group := ((Gui.mine fsC1 "m1" 0).1.getD (snapC1, "")).1.current_group,
        blocks := [], groups_dir := [] } =
      ((Gui.mine fsC1 "m1" 0).1.getD (snapC1, "")).2 :=
  c2_gui_state_hash_agreement _ fsC1 (Gui.mine fsC1 "m1" 0).2 "m1" 0
    ((Gui.mine fsC1 "m1" 0).1.getD (snapC1, "")).1
    ((Gui.mine fsC1 "m1" 0).1.getD (snapC1, "")).2
    (by decide!) rfl rfl rfl rfl

/-- C2 (counterexample): the storage-layer state hash used by block
creation does not hash the snapshot tuple: on the same logical snapshot —
no users, empty miner pool, the single group `(group_id 1, no miners,
created_at 5)`, nothing executed — the GUI-layer hash and the
storage-layer hash differ, because `Storage.compute_state_hash` hashes
`{"users", "miner_pool", "latest_group", "latest_block_hash"}` instead of
`{"users", "miner_pool", "current_group", "tx_executed"}`. -/
theorem c2_storage_hash_disagrees :
    fsC2.users = dbC2.users ∧ fsC2.miner_pool = dbC2.miner_pool ∧
    fsC2.current_group.group_id = rowC2.group_id ∧
    fsC2.current_group.miners = rowC2.miners ∧
    fsC2.current_group.created_at = rowC2.created_at ∧
    Store.get_latest_group dbC2 = some rowC2 ∧
    Gui.compute_state_hash fsC2 ≠ Store.compute_state_hash dbC2 := by
  refine ⟨rfl, rfl, rfl, rfl, rfl, by decide!, by decide!⟩

/-- C7 (amended): the store performs no contiguity validation and has no
failure path.  `Storage.save_block` succeeds on every block: it stores the
block under its `block_number` (replacing any block already stored there)
and leaves every other row unchanged — a block whose number is not
`latest + 1` or whose `prev_hash` differs from the latest `state_hash` is
stored all the same.  The only chain-shape guarantee lives in
`Blockchain.create_block`, which always constructs its block with
`block_number = latest.block_number + 1` and
`prev_hash = latest.state_hash` before handing it to `save_block`. -/
theorem c7_append_never_fails (db : DB) (b : Block) (state : Snapshot)
    (miner : String) (signatures : List SigData) (group_id : Int) (now : Int)
    (lb : Block) (hlatest : Store.get_latest_block db = some lb) :
    AL.lookup b.block_number (Store.save_block db b).blocks = some b ∧
    (∀ n, n ≠ b.block_number →
      AL.lookup n (Store.save_block db b).blocks = AL.lookup n db.blocks) ∧
    ∃ blk db', Chain.create_block db state miner signatures group_id now =
        some (blk, db') ∧
      blk.block_number = lb.block_number + 1 ∧ blk.prev_hash = lb.state_hash ∧
      db' = Store.save_block db blk := by
  refine ⟨AL.lookup_insert_self _ _ _,
    fun n hn => AL.lookup_insert_ne _ _ _ hn _, ?_⟩
  unfold Chain.create_block
  rw [hlatest]
  exact ⟨_, _, rfl, rfl, rfl, rfl⟩

/-- C7 (witness): on the freshly initialised genesis chain, saving an
ordinary created block behaves as stated. -/
theorem c7_append_never_fails_witness :
    AL.lookup blockGap.block_number (Store.save_block dbGen blockGap).blocks =
      some blockGap ∧
    AL.lookup 0 (Store.save_block dbGen blockGap).blocks = AL.lookup 0 dbGen.blocks :=
  let h := c7_append_never_fails dbGen blockGap snapC1 "m1" [] 1 4
    (Chain.genesis_block 3) (by decide!)
  ⟨h.1, h.2.1 0 (by decide)⟩

/-- C7 (counterexample): appending does not fail on a gap or a break.
From the genesis-only chain (latest block number `0`, state hash sixty-four
`'0'` characters), `save_block` accepts `blockGap` — block number `5`
(≠ latest + 1) and `prev_hash` sixty-four `'f'` characters (≠ the latest
state hash) — without any error value: the block is stored, becomes the
latest block, and the stored chain has changed. -/
theorem c7_chain_gap_accepted :
    (Store.get_latest_block dbGen).map Block.block_number = some 0 ∧
    (Store.get_latest_block dbGen).map Block.state_hash = some Chain.zeros64 ∧
    blockGap.block_number ≠ 0 + 1 ∧
    blockGap.prev_hash ≠ Chain.zeros64 ∧
    AL.lookup 5 (Store.save_block dbGen blockGap).blocks = some blockGap ∧
    Store.get_latest_block (Store.save_block dbGen blockGap) = some blockGap ∧
    (Store.save_block dbGen blockGap).blocks ≠ dbGen.blocks := by
  refine ⟨by decide!, by decide!, by decide, by decide!, by decide!, by decide!, by decide!⟩

/-- C9 (amended): `create_group`, when invoked, rotates as described —
below 1000 pooled miners it does nothing and reports `False`; from 1000 up
to 100000 it creates the group `group_id + 1` carrying the whole pool
(in insertion order) with the given timestamp, and clears the miner pool.
But the rotation is *not* part of the executor: `execute_transactions`
never calls `create_group`, and the proposed state always carries the
input group unchanged, whatever the pool size. -/
theorem c9_group_rotation_not_in_executor (fuel : Nat) (fs : FS) (t : Int)
    (miner : String) (now : Int) :
    (fs.miner_pool.length < 1000 → Gui.create_group fuel fs t = (false, fs)) ∧
    (1000 ≤ fs.miner_pool.length → fs.miner_pool.length ≤ 100000 →
      (Gui.create_group fuel fs t).1 = true ∧
      (Gui.create_group fuel fs t).2.miner_pool = [] ∧
      (Gui.create_group fuel fs t).2.current_group.group_id =
        fs.current_group.group_id + 1 ∧
      (Gui.create_group fuel fs t).2.current_group.miners = fs.miner_pool ∧
      (Gui.create_group fuel fs t).2.current_group.created_at = t) ∧
    (∀ st fs', Gui.execute_transactions fs miner now = (some st, fs') →
      st.current_group = fs.current_group) := by
  have hkeys : (AL.keys fs.miner_pool).length = fs.miner_pool.length :=
    List.length_map _ _
  refine ⟨?_, ?_, ?_⟩
  · intro hlt
    unfold Gui.create_group
    rw [if_pos (hkeys ▸ hlt)]
  · intro hge hle
    unfold Gui.create_group
    rw [if_neg (by omega : ¬ (AL.keys fs.miner_pool).length < 1000)]
    dsimp only
    rw [if_neg (by omega : ¬ (AL.keys fs.miner_pool).length > 100000)]
    exact ⟨rfl, rfl, rfl, rfl, rfl⟩
  · intro st fs' h
    unfold Gui.execute_transactions at h
    dsimp only at h
    split at h
    · exact absurd (congrArg Prod.fst h) (by simp)
    · split at h
      · exact absurd (congrArg Prod.fst h) (by simp)
      · split at h
        · exact absurd (congrArg Prod.fst h) (by simp)
        · have hfst := congrArg Prod.fst h
          simp only at hfst
          injection hfst with hst
          rw [← hst]

/-- C9 (witness): on the concrete state `fsC9` with exactly 1000 pooled
miners, `create_group` reports `True`, clears the pool, increments the
group id and carries the full pool as the new group's miners. -/
theorem c9_group_rotation_witness :
    (Gui.create_group 1000 fsC9 12).1 = true ∧
    (Gui.create_group 1000 fsC9 12).2.miner_pool = [] ∧
    (Gui.create_group 1000 fsC9 12).2.current_group.group_id =
      fsC9.current_group.group_id + 1 ∧
    (Gui.create_group 1000 fsC9 12).2.current_group.miners = fsC9.miner_pool ∧
    (Gui.create_group 1000 fsC9 12).2.current_group.created_at = 12 :=
  (c9_group_rotation_not_in_executor 1000 fsC9 12 "m1" 11).2.1
    (by decide) (by decide)

/-- C9 (counterexample): with the miner pool already at 1000 entries, a
full executor run creates no group: the proposed state's current group
and miner pool are exactly the input ones — `group_id` does not become
`latest + 1` and the pool is not cleared, because `execute_transactions`
never invokes `create_group`. -/
theorem c9_rotation_missing_from_round :
    fsC9.miner_pool.length = 1000 ∧
    ((Gui.execute_transactions fsC9 "m1" 11).1.map Snapshot.current_group) =
      some fsC9.current_group ∧
    ((Gui.execute_transactions fsC9 "m1" 11).1.map Snapshot.miner_pool) =
      some fsC9.miner_pool := by
  refine ⟨by decide, by decide!, by decide!⟩

/-- C1 (amended): the coordinator's `on_receive_signature` appends every
incoming signature whose state hash has a collection slot — with no check
that the signer belongs to `CS(h, active group miners)` and no
de-duplication (the filtering logic exists only in the never-invoked
`verify_aggregated_signature`) — and finalizes (broadcasts `FINAL_UPDATE`
and applies the state) exactly when the appended collection reaches 100
entries and the hash has a pending update; below 100 raw entries it never
finalizes, and the appended signature is simply recorded. -/
theorem c1_signature_threshold (st : Gui.CoordState) (sig : SigData)
    (now : Int) (sigs : List SigData)
    (hcol : AL.lookup sig.state_hash st.collected = some sigs) :
    ((Gui.on_receive_signature st sig now).2 = true ↔
      100 ≤ sigs.length + 1 ∧
      (AL.lookup sig.state_hash st.pending).isSome = true) ∧
    ((Gui.on_receive_signature st sig now).2 = false →
      AL.lookup sig.state_hash
        (Gui.on_receive_signature st sig now).1.collected =
        some (sigs ++ [sig])) := by
  unfold Gui.on_receive_signature
  dsimp only
  rw [hcol]
  dsimp only
  by_cases hlen : (sigs ++ [sig]).length ≥ 100
  · rw [if_pos hlen]
    cases hpend : AL.lookup sig.state_hash st.pending with
    | none =>
      refine ⟨by simp [hpend], fun _ => AL.lookup_insert_self _ _ _⟩
    | some upd =>
      dsimp only
      refine ⟨?_, fun hfalse => by simp at hfalse⟩
      simp only [List.length_append, List.length_cons, List.length_nil] at hlen
      simp only [hpend, Option.isSome_some]
      constructor
      · intro _
        exact ⟨by omega, trivial⟩
      · intro _
        trivial
  · rw [if_neg hlen]
    refine ⟨?_, fun _ => AL.lookup_insert_self _ _ _⟩
    simp only [List.length_append, List.length_cons, List.length_nil] at hlen
    constructor
    · intro hfalse
      simp at hfalse
    · rintro ⟨h100, -⟩
      omega

/-- C1 (witness): on a coordinator holding a pending proposal for `"h1"`,
the append that brings the collection from 99 to 100 signatures finalizes
the round, while the one that brings it from 98 to 99 does not. -/
theorem c1_signature_threshold_witness :
    (Gui.on_receive_signature (coordC1 99) sigS1 0).2 = true ∧
    (Gui.on_receive_signature (coordC1 98) sigS1 0).2 = false := by
  have h99 := c1_signature_threshold (coordC1 99) sigS1 0
    (List.replicate 99 sigS1) (by decide)
  have h98 := c1_signature_threshold (coordC1 98) sigS1 0
    (List.replicate 98 sigS1) (by decide)
  refine ⟨h99.1.mpr ⟨by decide, by decide⟩, ?_⟩
  cases hres : (Gui.on_receive_signature (coordC1 98) sigS1 0).2 with
  | false => rfl
  | true =>
    obtain ⟨h100, -⟩ := h98.1.mp hres
    simp only [List.length_replicate] at h100
    omega

/-- C1 (counterexample): duplicate signatures from a signer who is not
even in the committee do count toward the threshold.  The coordinator
`coordC1 99` has collected 99 copies of the very same signature, whose
signer `"s1"` is outside the committee selected for `"h1"` over the active
group; receiving that same signature once more finalizes the round. -/
theorem c1_duplicates_and_outsiders_finalize :
    ((AL.lookup "h1" (coordC1 99).collected).getD []).length = 99 ∧
    (((AL.lookup "h1" (coordC1 99).collected).getD []).all
      fun s => s.signer == "s1") = true ∧
    sigS1.signer = "s1" ∧
    selMem "s1" (Gui.get_selected_miners 1000 "h1" groupM1.miners) = false ∧
    (Gui.get_selected_miners 1000 "h1" groupM1.miners).isSome = true ∧
    (Gui.on_receive_signature (coordC1 99) sigS1 0).2 = true := by
  refine ⟨by decide, by decide, rfl, by decide, by decide, by decide!⟩

/-! ### Balance-invariant lemmas for the executor (C6) -/

theorem AL.lookup_mem {κ α : Type} [DecidableEq κ] {k : κ} {v : α} :
    ∀ {l : List (κ × α)}, AL.lookup k l = some v → (k, v) ∈ l := by
  intro l
  induction l with
  | nil => intro h; cases h
  | cons p rest ih =>
    intro h
    obtain ⟨k0, v0⟩ := p
    by_cases hk : k0 = k
    · subst hk
      simp only [AL.lookup, if_pos rfl] at h
      injection h with h
      subst h
      exact List.mem_cons_self ..
    · simp only [AL.lookup, if_neg hk] at h
      exact List.mem_cons_of_mem _ (ih h)

theorem AL.update_forall {κ α : Type} [DecidableEq κ] {P : α → Prop}
    {k : κ} {f : α → α} :
    ∀ {l : List (κ × α)}, (∀ p ∈ l, P p.2) →
    (∀ v, AL.lookup k l = some v → P (f v)) →
    ∀ p ∈ AL.update k f l, P p.2 := by
  intro l
  induction l with
  | nil => intro _ _ p hp; cases hp
  | cons q rest ih =>
    intro h hf p hp
    obtain ⟨k0, v0⟩ := q
    by_cases hk : k0 = k
    · subst hk
      simp only [AL.update, if_pos rfl, if_true, List.mem_cons] at hp
      rcases hp with hp | hp
      · subst hp
        exact hf v0 (by simp [AL.lookup])
      · exact h p (List.mem_cons_of_mem _ hp)
    · simp only [AL.update, if_neg hk, List.mem_cons] at hp
      rcases hp with hp | hp
      · subst hp
        exact h (k0, v0) (List.mem_cons_self ..)
      · refine ih (fun r hr => h r (List.mem_cons_of_mem _ hr)) ?_ p hp
        intro v hv
        exact hf v (by simpa [AL.lookup, if_neg hk] using hv)

theorem AL.insert_forall {κ α : Type} [DecidableEq κ] {P : α → Prop}
    {k : κ} {v : α} :
    ∀ {l : List (κ × α)}, (∀ p ∈ l, P p.2) → P v →
    ∀ p ∈ AL.insert k v l, P p.2 := by
  intro l
  induction l with
  | nil =>
    intro _ hv p hp
    simp only [AL.insert, List.mem_singleton] at hp
    subst hp; exact hv
  | cons q rest ih =>
    intro h hv p hp
    obtain ⟨k0, v0⟩ := q
    by_cases hk : k0 = k
    · subst hk
      simp only [AL.insert, if_pos rfl, if_true, List.mem_cons] at hp
      rcases hp with hp | hp
      · subst hp; exact hv
      · exact h p (List.mem_cons_of_mem _ hp)
    · simp only [AL.insert, if_neg hk, List.mem_cons] at hp
      rcases hp with hp | hp
      · subst hp; exact h (k0, v0) (List.mem_cons_self ..)
      · exact ih (fun r hr => h r (List.mem_cons_of_mem _ hr)) hv p hp

theorem decrease_life_balances {users : List (String × UserR)}
    (h : ∀ q ∈ users, 0 ≤ q.2.balance) :
    ∀ q ∈ Gui.decrease_life users, 0 ≤ q.2.balance := by
  intro q hq
  unfold Gui.decrease_life at hq
  obtain ⟨hq, -⟩ := List.mem_filter.mp hq
  obtain ⟨p, hp, hpq⟩ := List.mem_map.mp hq
  subst hpq
  exact h p hp

theorem execTx_balances (now : Int) (users : List (String × UserR))
    (mp : List (String × Int)) (ex : List (String × Tx)) (txid : String)
    (tx : Tx) (hinv : ∀ q ∈ users, 0 ≤ q.2.balance)
    (hamt : tx.type = "transfer" → 0 ≤ tx.amount) :
    ∀ q ∈ (Gui.execTx now (users, mp, ex) (txid, tx)).1, 0 ≤ q.2.balance := by
  unfold Gui.execTx
  dsimp only
  by_cases hs : AL.hasKey tx.fromAddr users = true
  case neg =>
    rw [if_pos hs]
    exact hinv
  case pos =>
    rw [if_neg (not_not_intro hs)]
    by_cases ht : tx.type = "transfer"
    · rw [if_pos ht]
      by_cases hg : AL.hasKey tx.toAddr users = true ∧
          ((AL.lookup tx.fromAddr users).getD default).balance ≥ tx.amount + tx.fee
      · rw [if_pos hg]
        dsimp only
        have h1 : ∀ q ∈ AL.update tx.fromAddr
            (fun u => { u with balance := u.balance - (tx.amount + tx.fee) }) users,
            0 ≤ q.2.balance := by
          refine AL.update_forall (P := fun u : UserR => (0:ℚ) ≤ u.balance) hinv ?_
          intro v hv
          have hvb : v.balance =
              ((AL.lookup tx.fromAddr users).getD default).balance := by
            rw [hv]
            rfl
          dsimp only
          rw [hvb]
          exact sub_nonneg.mpr hg.2
        have h2 : ∀ q ∈ AL.update tx.toAddr
            (fun u => { u with balance := u.balance + tx.amount })
            (AL.update tx.fromAddr
              (fun u => { u with balance := u.balance - (tx.amount + tx.fee) }) users),
            0 ≤ q.2.balance := by
          refine AL.update_forall (P := fun u : UserR => (0:ℚ) ≤ u.balance) h1 ?_
          intro v hv
          dsimp only
          exact add_nonneg (h1 _ (AL.lookup_mem hv)) (hamt ht)
        exact AL.update_forall (P := fun u : UserR => (0:ℚ) ≤ u.balance) h2 fun v hv => h2 _ (AL.lookup_mem hv)
      · rw [if_neg hg]
        exact hinv
    · rw [if_neg ht]
      by_cases hn : tx.type = "new_account"
      · rw [if_pos hn]
        by_cases hg : ¬ AL.hasKey tx.toAddr users = true ∧
            ((AL.lookup tx.fromAddr users).getD default).balance ≥ tx.fee
        · rw [if_pos hg]
          dsimp only
          have h1 : ∀ q ∈ AL.update tx.fromAddr
              (fun u => { u with balance := u.balance - tx.fee }) users,
              0 ≤ q.2.balance := by
            refine AL.update_forall (P := fun u : UserR => (0:ℚ) ≤ u.balance) hinv ?_
            intro v hv
            have hvb : v.balance =
                ((AL.lookup tx.fromAddr users).getD default).balance := by
              rw [hv]
              rfl
            dsimp only
            rw [hvb]
            exact sub_nonneg.mpr hg.2
          have h2 : ∀ q ∈ AL.insert tx.toAddr
              { address := tx.toAddr, balance := 0, nonce := 0, life := Gui.DEFAULT_LIFE }
              (AL.update tx.fromAddr
                (fun u => { u with balance := u.balance - tx.fee }) users),
              0 ≤ q.2.balance :=
            AL.insert_forall (P := fun u : UserR => (0:ℚ) ≤ u.balance) h1 le_rfl
          exact AL.update_forall (P := fun u : UserR => (0:ℚ) ≤ u.balance) h2 fun v hv => h2 _ (AL.lookup_mem hv)
        · rw [if_neg hg]
          exact hinv
      · rw [if_neg hn]
        by_cases hj : tx.type = "join_pool"
        · rw [if_pos hj]
          by_cases hg : ((AL.lookup tx.fromAddr users).getD default).balance ≥ tx.fee
          · rw [if_pos hg]
            dsimp only
            have h1 : ∀ q ∈ AL.update tx.fromAddr
                (fun u => { u with balance := u.balance - tx.fee }) users,
                0 ≤ q.2.balance := by
              refine AL.update_forall (P := fun u : UserR => (0:ℚ) ≤ u.balance) hinv ?_
              intro v hv
              have hvb : v.balance =
                  ((AL.lookup tx.fromAddr users).getD default).balance := by
                rw [hv]
                rfl
              dsimp only
              rw [hvb]
              exact sub_nonneg.mpr hg
            exact AL.update_forall (P := fun u : UserR => (0:ℚ) ≤ u.balance) h1 fun v hv => h1 _ (AL.lookup_mem hv)
          · rw [if_neg hg]
            exact hinv
        · rw [if_neg hj]
          exact hinv

theorem foldl_execTx_balances (now : Int) :
    ∀ (pool : List (String × Tx)) (users : List (String × UserR))
      (mp : List (String × Int)) (ex : List (String × Tx)),
    (∀ q ∈ users, 0 ≤ q.2.balance) →
    (∀ p ∈ pool, p.2.type = "transfer" → 0 ≤ p.2.amount) →
    ∀ q ∈ (pool.foldl (Gui.execTx now) (users, mp, ex)).1, 0 ≤ q.2.balance := by
  intro pool
  induction pool with
  | nil => intro users mp ex h _; exact h
  | cons p rest ih =>
    intro users mp ex h hamt
    obtain ⟨txid, tx⟩ := p
    simp only [List.foldl_cons]
    rcases hstep : Gui.execTx now (users, mp, ex) (txid, tx) with ⟨u1, m1, e1⟩
    have h1 : ∀ q ∈ u1, 0 ≤ q.2.balance := by
      have := execTx_balances now users mp ex txid tx h
        (hamt (txid, tx) (List.mem_cons_self ..))
      rw [hstep] at this
      exact this
    exact ih u1 m1 e1 h1 fun r hr => hamt r (List.mem_cons_of_mem _ hr)

/-- C6 (amended): for every input state whose balances are all
non-negative and every transaction pool *in which each transfer carries a
non-negative amount*, the executor produces a proposed state whose
balances are all non-negative: a transaction whose execution would drive a
balance negative fails its balance guard and is skipped (the round is
never aborted).  The amount hypothesis is necessary: a transfer with a
negative amount passes the sender's guard yet drives the receiver
negative (see the counterexample). -/
theorem c6_balances_stay_nonneg (fs : FS) (miner : String) (now : Int)
    (st : Snapshot) (fs' : FS)
    (hinv : ∀ q ∈ fs.users, 0 ≤ q.2.balance)
    (hamt : ∀ p ∈ fs.tx_pool, p.2.type = "transfer" → 0 ≤ p.2.amount)
    (hrun : Gui.execute_transactions fs miner now = (some st, fs')) :
    ∀ q ∈ st.users, 0 ≤ q.2.balance := by
  unfold Gui.execute_transactions at hrun
  dsimp only at hrun
  split at hrun
  · exact absurd (congrArg Prod.fst hrun) (by simp)
  · split at hrun
    · exact absurd (congrArg Prod.fst hrun) (by simp)
    · split at hrun
      · exact absurd (congrArg Prod.fst hrun) (by simp)
      · have hfst := congrArg Prod.fst hrun
        simp only at hfst
        injection hfst with hst
        rw [← hst]
        dsimp only
        have hdl : ∀ q ∈ Gui.decrease_life fs.users, 0 ≤ q.2.balance :=
          decrease_life_balances hinv
        have hfold := foldl_execTx_balances now fs.tx_pool
          (Gui.decrease_life fs.users) fs.miner_pool [] hdl hamt
        exact AL.update_forall (P := fun u : UserR => (0:ℚ) ≤ u.balance) hfold
          fun v hv => le_trans (hfold _ (AL.lookup_mem hv)) (by dsimp only; linarith)

/-- C6 (witness): a pool holding one well-formed transfer (10 LBRC balance,
amount 5, fee 1) executes into a state whose balances are all
non-negative. -/
theorem c6_balances_stay_nonneg_witness :
    (((Gui.execute_transactions fsC6w "m1" 13).1.getD snapC1).users.all
      fun q => decide (0 ≤ q.2.balance)) = true := by
  have h := c6_balances_stay_nonneg fsC6w "m1" 13
    ((Gui.execute_transactions fsC6w "m1" 13).1.getD snapC1)
    (Gui.execute_transactions fsC6w "m1" 13).2
    (by decide!) (by decide!) (by decide!)
  exact List.all_eq_true.mpr fun q hq => decide_eq_true (h q hq)

/-- C6 (counterexample): the executor is exposed to the raw pool, and a
transfer with a *negative* amount drives the receiver's balance negative.
All balances of `fsC6` are non-negative, the pool holds one transfer of
amount `-5` (fee `0`) from `"a1"` to `"b1"`, both with balance `0`; the
guard `balance >= amount + fee` passes (`0 ≥ -5`), the transaction
executes, and `"b1"` ends at balance `-5 < 0`. -/
theorem c6_negative_amount_breaks_invariant :
    (fsC6.users.all fun q => decide (0 ≤ q.2.balance)) = true ∧
    txNeg.type = "transfer" ∧ txNeg.amount < 0 ∧
    ((Gui.execute_transactions fsC6 "m1" 9).1.map fun st =>
      (AL.lookup "b1" st.users).map fun u => u.balance) = some (some (-5)) := by
  exact ⟨by decide!, rfl, by decide!, by decide!⟩

/-! ### Draw-without-replacement lemmas for `Random.sample` (C4) -/

theorem randbelow_lt :
    ∀ (fuel : Nat) (st : PyRandom.MT) (n j : Nat) (st' : PyRandom.MT),
    PyRandom.randbelow fuel st n = some (j, st') → j < n := by
  intro fuel
  induction fuel with
  | zero => intro st n j st' h; cases h
  | succ fuel ih =>
    intro st n j st' h
    unfold PyRandom.randbelow at h
    dsimp only at h
    rcases hgr : PyRandom.getrandbits st (PyRandom.bitLen n) with ⟨r, st1⟩
    rw [hgr] at h
    dsimp only at h
    split at h
    · next hr =>
      injection h with h
      injection h with h1 h2
      rw [← h1]
      exact hr
    · exact ih st1 n j st' h

theorem pickFresh_spec :
    ∀ (fuel : Nat) (st : PyRandom.MT) (n : Nat) (selected : List Nat)
      (j : Nat) (st' : PyRandom.MT),
    PyRandom.pickFresh fuel st n selected = some (j, st') →
    j < n ∧ j ∉ selected := by
  intro fuel
  induction fuel with
  | zero => intro st n selected j st' h; cases h
  | succ fuel ih =>
    intro st n selected j st' h
    unfold PyRandom.pickFresh at h
    rcases hrb : PyRandom.randbelow fuel st n with _ | ⟨j0, st1⟩
    · rw [hrb] at h; cases h
    · rw [hrb] at h
      dsimp only at h
      split at h
      · exact ih st1 n selected j st' h
      · next hnotmem =>
        injection h with h
        injection h with h1 h2
        rw [← h1]
        exact ⟨randbelow_lt fuel st n j0 st1 hrb, hnotmem⟩

/-- Moving the element at index `m` of `l.take (m + 1)` to the front is a
permutation. -/
theorem getD_cons_take_perm (l : List String) (m : Nat) (hm : m < l.length) :
    (l.getD m "" :: l.take m).Perm (l.take (m + 1)) := by
  rw [List.take_succ, List.getElem?_eq_getElem hm,
      List.getD_eq_getElem l "" hm]
  exact (List.perm_append_singleton _ _).symm

/-- The multiset content of one partial-Fisher-Yates step: drawing
`l.getD j` and overwriting slot `j` with the last active element shrinks
the active prefix by one element, as a permutation. -/
theorem fy_step_perm (l : List String) :
    ∀ (a j : Nat), j < a → a ≤ l.length →
    (l.getD j "" :: ((l.set j (l.getD (a - 1) "")).take (a - 1))).Perm
      (l.take a) := by
  induction l with
  | nil => intro a j hj ha; simp only [List.length_nil] at ha; omega
  | cons x rest ih =>
    intro a j hj ha
    cases j with
    | zero =>
      match a, hj with
      | 1, _ =>
        simp
      | (a'' + 2), _ =>
        have hlen : a'' + 1 ≤ rest.length := by
          simpa using ha
        simp only [List.getD_cons_zero, List.getD_cons_succ,
          Nat.add_sub_cancel, List.set_cons_zero, List.take_succ_cons]
        refine List.Perm.cons x ?_
        exact getD_cons_take_perm rest a'' (by omega)
    | succ j' =>
      match a, hj with
      | (a' + 1), _ =>
        have hj' : j' < a' := by omega
        match a', hj' with
        | (b + 1), _ =>
          have hb : b + 1 ≤ rest.length := by simpa using ha
          simp only [List.getD_cons_succ, Nat.add_sub_cancel,
            List.set_cons_succ, List.take_succ_cons]
          exact List.Perm.trans
            (List.Perm.swap x (rest.getD j' "") _)
            (List.Perm.cons x (ih (b + 1) j' (by omega) hb))

theorem samplePool_subperm (fuel : Nat) :
    ∀ (m : Nat) (st : PyRandom.MT) (pool : List String) (a : Nat)
      (acc res : List String) (st' : PyRandom.MT),
    a ≤ pool.length →
    PyRandom.samplePool fuel st pool a m acc = some (res, st') →
    ∃ tail, res = acc.reverse ++ tail ∧ tail.length = m ∧
      tail.Subperm (pool.take a) := by
  intro m
  induction m with
  | zero =>
    intro st pool a acc res st' _ h
    unfold PyRandom.samplePool at h
    injection h with h
    injection h with h1 h2
    exact ⟨[], by rw [← h1]; simp, rfl, List.nil_subperm⟩
  | succ m ih =>
    intro st pool a acc res st' ha h
    unfold PyRandom.samplePool at h
    rcases hrb : PyRandom.randbelow fuel st a with _ | ⟨j, st1⟩
    · rw [hrb] at h; cases h
    · rw [hrb] at h
      dsimp only at h
      have hj : j < a := randbelow_lt fuel st a j st1 hrb
      have ha0 : 1 ≤ a := by omega
      have ha1 : a - 1 ≤ (pool.set j (pool.getD (a - 1) "")).length := by
        rw [List.length_set]; omega
      obtain ⟨tail, hres, hlen, hsub⟩ := ih st1
        (pool.set j (pool.getD (a - 1) "")) (a - 1)
        (pool.getD j "" :: acc) res st' ha1 h
      refine ⟨pool.getD j "" :: tail, ?_, by simp [hlen], ?_⟩
      · rw [hres]
        simp
      · refine List.Subperm.trans ?_ ((fy_step_perm pool a j hj ha).subperm)
        exact (List.subperm_cons _).mpr hsub

theorem sampleSel_spec (fuel : Nat) (pop : List String) (n : Nat) :
    ∀ (m : Nat) (st : PyRandom.MT) (selected : List Nat)
      (acc res : List String) (st' : PyRandom.MT),
    PyRandom.sampleSel fuel pop n st selected m acc = some (res, st') →
    ∃ idxs : List Nat,
      res = acc.reverse ++ idxs.map (fun i => pop.getD i "") ∧
      idxs.length = m ∧ idxs.Nodup ∧
      ∀ i ∈ idxs, i < n ∧ i ∉ selected := by
  intro m
  induction m with
  | zero =>
    intro st selected acc res st' h
    unfold PyRandom.sampleSel at h
    injection h with h
    injection h with h1 h2
    exact ⟨[], by rw [← h1]; simp, rfl, List.nodup_nil, by simp⟩
  | succ m ih =>
    intro st selected acc res st' h
    unfold PyRandom.sampleSel at h
    rcases hpf : PyRandom.pickFresh fuel st n selected with _ | ⟨j, st1⟩
    · rw [hpf] at h; cases h
    · rw [hpf] at h
      dsimp only at h
      obtain ⟨hjn, hjsel⟩ := pickFresh_spec fuel st n selected j st1 hpf
      obtain ⟨idxs, hres, hlen, hnd, hprops⟩ := ih st1 (j :: selected)
        (pop.getD j "" :: acc) res st' h
      refine ⟨j :: idxs, ?_, by simp [hlen], ?_, ?_⟩
      · rw [hres]; simp
      · refine List.nodup_cons.mpr ⟨?_, hnd⟩
        intro hjmem
        exact (hprops j hjmem).2 (List.mem_cons_self ..)
      · intro i hi
        rcases List.mem_cons.mp hi with hi | hi
        · subst hi; exact ⟨hjn, hjsel⟩
        · obtain ⟨hin, hisel⟩ := hprops i hi
          exact ⟨hin, fun hmem => hisel (List.mem_cons_of_mem _ hmem)⟩

theorem pySample_spec (fuel : Nat) (st : PyRandom.MT) (pop : List String)
    (k : Nat) (res : List String) (st' : PyRandom.MT) (hnd : pop.Nodup)
    (h : PyRandom.pySample fuel st pop k = some (res, st')) :
    res.length = k ∧ res.Nodup ∧ ∀ x ∈ res, x ∈ pop := by
  have hpoolCase :
      PyRandom.samplePool fuel st pop pop.length k [] = some (res, st') →
      res.length = k ∧ res.Nodup ∧ ∀ x ∈ res, x ∈ pop := by
    intro hp
    obtain ⟨tail, hres, hlen, hsub⟩ :=
      samplePool_subperm fuel k st pop pop.length [] res st' le_rfl hp
    rw [List.take_length] at hsub
    obtain ⟨mid, hmid, hmidsub⟩ := hsub
    have hres' : res = tail := by rw [hres]; rfl
    subst hres'
    refine ⟨hlen, ?_, fun x hx => (List.Subperm.subset ⟨mid, hmid, hmidsub⟩) hx⟩
    exact (hmid.nodup_iff).mp (hmidsub.nodup hnd)
  have hselCase :
      PyRandom.sampleSel fuel pop pop.length st [] k [] = some (res, st') →
      res.length = k ∧ res.Nodup ∧ ∀ x ∈ res, x ∈ pop := by
    intro hs
    obtain ⟨idxs, hres, hlen, hidnd, hprops⟩ :=
      sampleSel_spec fuel pop pop.length k st [] [] res st' hs
    have hres' : res = idxs.map (fun i => pop.getD i "") := by rw [hres]; rfl
    subst hres'
    refine ⟨by simp [hlen], ?_, ?_⟩
    · refine List.Nodup.map_on ?_ hidnd
      intro i hi i' hi' heq
      have hiL : i < pop.length := (hprops i hi).1
      have hiL' : i' < pop.length := (hprops i' hi').1
      rw [List.getD_eq_getElem pop "" hiL, List.getD_eq_getElem pop "" hiL'] at heq
      have hinj := List.nodup_iff_injective_get.mp hnd
      have hget : pop.get ⟨i, hiL⟩ = pop.get ⟨i', hiL'⟩ := by simpa using heq
      have := hinj hget
      simpa using this
    · intro x hx
      obtain ⟨i, hi, hix⟩ := List.mem_map.mp hx
      rw [← hix, List.getD_eq_getElem pop "" (hprops i hi).1]
      exact List.getElem_mem _
  unfold PyRandom.pySample at h
  dsimp only at h
  split at h
  · cases h
  · split at h
    · split at h
      · exact hpoolCase h
      · exact hselCase h
    · split at h
      · exact hpoolCase h
      · exact hselCase h

/-- C4 (amended): both selectors return the whole roster (its key list)
whenever it holds at most 100 addresses; above 100 they draw exactly 100
distinct addresses from the roster — but from the roster keys in their
dictionary (insertion) order, not sorted ascending, and the GUI-layer
selector seeds the generator with the *entire* `state_hash` as an unsigned
integer while only the consensus-layer selector uses its first 16 hex
characters (see the counterexample for both deviations). -/
theorem c4_committee_selection (fuel : Nat) (h : String)
    (g : List (String × Int)) (hnd : (AL.keys g).Nodup) :
    ((AL.keys g).length ≤ 100 →
      Consensus.get_selected_miners fuel h g = some (AL.keys g) ∧
      Gui.get_selected_miners fuel h g = some (AL.keys g)) ∧
    (∀ l, 100 < (AL.keys g).length →
      Consensus.get_selected_miners fuel h g = some l →
      l.length = 100 ∧ l.Nodup ∧ ∀ x ∈ l, x ∈ AL.keys g) ∧
    (∀ l, 100 < (AL.keys g).length →
      Gui.get_selected_miners fuel h g = some l →
      l.length = 100 ∧ l.Nodup ∧ ∀ x ∈ l, x ∈ AL.keys g) := by
  refine ⟨?_, ?_, ?_⟩
  · intro hlen
    constructor
    · unfold Consensus.get_selected_miners
      rw [if_pos hlen]
    · unfold Gui.get_selected_miners
      rw [if_pos hlen]
  · intro l hlen hsel
    unfold Consensus.get_selected_miners at hsel
    rw [if_neg (by omega)] at hsel
    obtain ⟨⟨res, st'⟩, hps, hfst⟩ := Option.map_eq_some'.mp hsel
    have := pySample_spec fuel _ (AL.keys g) 100 res st' hnd hps
    subst hfst
    exact this
  · intro l hlen hsel
    unfold Gui.get_selected_miners at hsel
    rw [if_neg (by omega)] at hsel
    obtain ⟨⟨res, st'⟩, hps, hfst⟩ := Option.map_eq_some'.mp hsel
    have := pySample_spec fuel _ (AL.keys g) 100 res st' hnd hps
    subst hfst
    exact this

/-- C4 (witness): the whole-roster branch at a 2-address roster, and the
sampling branch at the 101-address roster `roster101Fwd` — the drawn
committee has exactly 100 distinct members, all from the roster. -/
theorem c4_committee_selection_witness :
    Consensus.get_selected_miners 10 hashAB roster2a = some (AL.keys roster2a) ∧
    ((Consensus.get_selected_miners 1000 hashAB roster101Fwd).getD []).length = 100 ∧
    ((Consensus.get_selected_miners 1000 hashAB roster101Fwd).getD []).Nodup ∧
    ∀ x ∈ (Consensus.get_selected_miners 1000 hashAB roster101Fwd).getD [],
      x ∈ AL.keys roster101Fwd := by
  refine ⟨(c4_committee_selection 10 hashAB roster2a (by decide)).1 (by decide) |>.1, ?_⟩
  have h := (c4_committee_selection 1000 hashAB roster101Fwd (by decide!)).2.1
    ((Consensus.get_selected_miners 1000 hashAB roster101Fwd).getD [])
    (by decide!) (by decide!)
  exact h

set_option maxHeartbeats 2000000 in
/-- C4 (counterexample): the selector neither draws from the sorted roster
nor (in the GUI layer) seeds from the first 16 hex characters.  On the
101-address roster inserted in descending order with state hash `"ab"*32`:
the consensus-layer committee contains `"a053"` while the committee the
specification describes (same seed, roster sorted ascending —
`specSelectCommittee`) excludes it; and the GUI-layer committee (seeded
with the whole hash) excludes `"a079"` while the consensus-layer one
contains it. -/
theorem c4_selector_deviates_from_spec :
    100 < (AL.keys roster101Rev).length ∧
    selMem "a053" (Consensus.get_selected_miners 1000 hashAB roster101Rev) = true ∧
    selMem "a053" (specSelectCommittee 1000 hashAB (AL.keys roster101Rev)) = false ∧
    (specSelectCommittee 1000 hashAB (AL.keys roster101Rev)).isSome = true ∧
    selMem "a079" (Consensus.get_selected_miners 1000 hashAB roster101Rev) = true ∧
    selMem "a079" (Gui.get_selected_miners 1000 hashAB roster101Rev) = false ∧
    (Gui.get_selected_miners 1000 hashAB roster101Rev).isSome = true := by
  exact ⟨by decide!, by decide!, by decide!, by decide!, by decide!, by decide!, by decide!⟩

/-- C5 (amended): selection is a pure function of `(state_hash, roster)`
(each call reseeds the generator from the state hash alone, so repeated
calls agree), and for rosters of at most 100 addresses permuting the
roster leaves the committee unchanged *as a set*: both calls return their
whole key list, and those lists are permutations of each other.  For
rosters above 100 the committee genuinely depends on the roster's
insertion order (see the counterexample). -/
theorem c5_committee_determinism (fuel : Nat) (h : String)
    (g1 g2 : List (String × Int))
    (hperm : (AL.keys g1).Perm (AL.keys g2))
    (hlen : (AL.keys g1).length ≤ 100) :
    Consensus.get_selected_miners fuel h g1 = some (AL.keys g1) ∧
    Consensus.get_selected_miners fuel h g2 = some (AL.keys g2) ∧
    ((Consensus.get_selected_miners fuel h g1).getD []).Perm
      ((Consensus.get_selected_miners fuel h g2).getD []) := by
  have hlen2 : (AL.keys g2).length ≤ 100 := hperm.length_eq ▸ hlen
  have e1 : Consensus.get_selected_miners fuel h g1 = some (AL.keys g1) := by
    unfold Consensus.get_selected_miners
    rw [if_pos hlen]
  have e2 : Consensus.get_selected_miners fuel h g2 = some (AL.keys g2) := by
    unfold Consensus.get_selected_miners
    rw [if_pos hlen2]
  refine ⟨e1, e2, ?_⟩
  rw [e1, e2]
  exact hperm

/-- C5 (witness): the two orderings of the same 2-address roster both
return their whole key list, and the two committees are permutations of
each other. -/
theorem c5_committee_determinism_witness :
    Consensus.get_selected_miners 10 hashAB roster2a = some (AL.keys roster2a) ∧
    Consensus.get_selected_miners 10 hashAB roster2b = some (AL.keys roster2b) ∧
    ((Consensus.get_selected_miners 10 hashAB roster2a).getD []).Perm
      ((Consensus.get_selected_miners 10 hashAB roster2b).getD []) :=
  c5_committee_determinism 10 hashAB roster2a roster2b (by decide) (by decide)

set_option maxHeartbeats 2000000 in
/-- C5 (counterexample): permuting the roster *does* change the committee
when the roster exceeds 100 addresses.  The same 101 addresses inserted in
ascending (`roster101Fwd`) versus descending (`roster101Rev`) order — equal
as sets — yield different committees for the same state hash: `"a047"` is
selected under the first ordering and not under the second. -/
theorem c5_roster_order_changes_committee :
    (AL.keys roster101Fwd).Perm (AL.keys roster101Rev) ∧
    100 < (AL.keys roster101Fwd).length ∧
    selMem "a047" (Consensus.get_selected_miners 1000 hashAB roster101Fwd) = true ∧
    selMem "a047" (Consensus.get_selected_miners 1000 hashAB roster101Rev) = false ∧
    (Consensus.get_selected_miners 1000 hashAB roster101Rev).isSome = true := by
  exact ⟨by decide!, by decide!, by decide!, by decide!, by decide!⟩
